import Mathlib

/-!
Shallow embedding of the scan-orchestration core of an AWS Well-Architected
assessment backend: the DynamoDB-backed key-value client, the scan
repository, the per-region AWS resource scanner, the multi-agent Bedrock
assessment service, and the background scan orchestrator together with its
REST read path.  External effects (boto3 calls, credential decryption,
language-model invocations, the system clock) are modelled as explicit
environments recording the outcome of each call; machine-level numerics are
modelled over Nat with the floor semantics of the source.
-/

namespace WAScan

/-- JSON-like values flowing through the system: Python strings, ints, the
one non-integer numeric literal 7.5 (kept as a numerator/denominator pair),
booleans, None, lists, and insertion-ordered dicts modelled as association
lists (Python 3.7+ dicts preserve insertion order). -/
inductive Value : Type where
  | str (s : String)
  | num (n : Nat)
  | rat (numerator denominator : Nat)
  | bool (b : Bool)
  | null
  | list (vs : List Value)
  | dict (fields : List (String × Value))

/-- Python dict lookup `d.get(k)` on an association list. -/
def alookup (d : List (String × Value)) (k : String) : Option Value :=
  match d with
  | [] => none
  | p :: rest => if p.1 == k then some p.2 else alookup rest k

/-- Field access on a dict-shaped value; `none` on non-dicts and missing keys. -/
def fieldOf (v : Value) (k : String) : Option Value :=
  match v with
  | .dict d => alookup d k
  | _ => none

/-- Whether a value is a Python dict. -/
def Value.isDict : Value → Bool
  | .dict _ => true
  | _ => false

/-- Python dict assignment `d[k] = v`: replaces the value in place when the
key is already present (keeping its original position), otherwise appends. -/
def dictInsert (d : List (String × Value)) (k : String) (v : Value) :
    List (String × Value) :=
  if d.any (fun p => p.1 == k) then d.map (fun p => if p.1 == k then (k, v) else p)
  else d ++ [(k, v)]

/-! ## RegionScanner: `app/services/aws_scanner.py`

Each boto3 API call is modelled by its outcome, `Except String α`: either the
deserialized response data or the message of the raised exception. -/

/-- One entry of `describe_instances` (flattened fields used by `_scan_ec2`).
`monitoring_state` models the nested optional Monitoring State attribute
(defaulted to disabled) and `public_ip` the optional PublicIpAddress. -/
structure Ec2Instance where
  instance_id : String
  instance_type : String
  state : String
  monitoring_state : Option String
  public_ip : Option String

/-- One bucket as seen by `_scan_s3`: its name, whether the nested
`get_bucket_encryption` call succeeds, and the outcome of
`get_bucket_versioning` (the optional `Status` attribute). -/
structure S3Bucket where
  name : String
  encryption_call_ok : Bool
  versioning_call : Except String (Option String)

/-- One entry of `describe_db_instances` used by `_scan_rds`. -/
structure RdsInstance where
  identifier : String
  engine : String
  instance_class : String
  multi_az : Bool
  storage_encrypted : Option Bool
  backup_retention : Option Nat

/-- One entry of `list_functions` used by `_scan_lambda`. -/
structure LambdaFunction where
  name : String
  runtime : String
  memory : Nat
  timeout : Nat

/-- `AWSScanner._scan_ec2`: flattens reservations into instance summaries;
on a failed API call returns the zeroed dict carrying the error message. -/
def scan_ec2 (call : Except String (List (List Ec2Instance))) : Value :=
  match call with
  | .ok reservations =>
    let instance_data := reservations.flatten.map (fun i => Value.dict
      [("instance_id", .str i.instance_id),
       ("instance_type", .str i.instance_type),
       ("state", .str i.state),
       ("monitoring", .str (i.monitoring_state.getD "disabled")),
       ("public_ip", match i.public_ip with | some ip => .str ip | none => .null)])
    .dict [("instances", .list instance_data), ("count", .num instance_data.length)]
  | .error e => .dict [("instances", .list []), ("count", .num 0), ("error", .str e)]

/-- `AWSScanner._scan_s3`: summarizes each bucket; the nested per-bucket
calls fall back to `False` on their own exceptions. -/
def scan_s3 (call : Except String (List S3Bucket)) : Value :=
  match call with
  | .ok buckets =>
    let bucket_data := buckets.map (fun b => Value.dict
      [("name", .str b.name),
       ("encrypted", .bool b.encryption_call_ok),
       ("versioning", .bool (match b.versioning_call with
         | .ok (some s) => s == "Enabled"
         | .ok none => false
         | .error _ => false))])
    .dict [("buckets", .list bucket_data), ("count", .num bucket_data.length)]
  | .error e => .dict [("buckets", .list []), ("count", .num 0), ("error", .str e)]

/-- `AWSScanner._scan_rds`. -/
def scan_rds (call : Except String (List RdsInstance)) : Value :=
  match call with
  | .ok dbs =>
    let db_data := dbs.map (fun db => Value.dict
      [("identifier", .str db.identifier),
       ("engine", .str db.engine),
       ("instance_class", .str db.instance_class),
       ("multi_az", .bool db.multi_az),
       ("encrypted", .bool (db.storage_encrypted.getD false)),
       ("backup_retention", .num (db.backup_retention.getD 0))])
    .dict [("databases", .list db_data), ("count", .num db_data.length)]
  | .error e => .dict [("databases", .list []), ("count", .num 0), ("error", .str e)]

/-- `AWSScanner._scan_lambda`. -/
def scan_lambda (call : Except String (List LambdaFunction)) : Value :=
  match call with
  | .ok fns =>
    let func_data := fns.map (fun f => Value.dict
      [("name", .str f.name),
       ("runtime", .str f.runtime),
       ("memory", .num f.memory),
       ("timeout", .num f.timeout)])
    .dict [("functions", .list func_data), ("count", .num func_data.length)]
  | .error e => .dict [("functions", .list []), ("count", .num 0), ("error", .str e)]

/-- `AWSScanner._scan_vpc`: counts VPCs and security groups.  Note the
error branch carries no `count` key, only the two zeroed counters. -/
def scan_vpc (call : Except String (Nat × Nat)) : Value :=
  match call with
  | .ok (nvpcs, nsgs) => .dict [("vpcs", .num nvpcs), ("security_groups", .num nsgs)]
  | .error e => .dict [("vpcs", .num 0), ("security_groups", .num 0), ("error", .str e)]

/-- `AWSScanner._scan_iam`: counts users and roles; no `count` key either. -/
def scan_iam (call : Except String (Nat × Nat)) : Value :=
  match call with
  | .ok (nusers, nroles) => .dict [("users", .num nusers), ("roles", .num nroles)]
  | .error e => .dict [("users", .num 0), ("roles", .num 0), ("error", .str e)]

/-- `AWSScanner._scan_cloudwatch`: counts metric alarms; no `count` key. -/
def scan_cloudwatch (call : Except String Nat) : Value :=
  match call with
  | .ok n => .dict [("alarms", .num n)]
  | .error e => .dict [("alarms", .num 0), ("error", .str e)]

/-- Outcomes of every boto3 call one `scan_region` invocation can make. -/
structure RegionApi where
  ec2 : Except String (List (List Ec2Instance))
  s3 : Except String (List S3Bucket)
  rds : Except String (List RdsInstance)
  lambdaFns : Except String (List LambdaFunction)
  vpc : Except String (Nat × Nat)
  iam : Except String (Nat × Nat)
  cloudwatch : Except String Nat

/-- The guard comparing the region against us-east-1 under which `scan_region` evaluates
the global-scope category scanners (`_scan_s3`, `_scan_iam`). -/
def isHomeRegion (region : String) : Bool :=
  region == "us-east-1"

/-- `AWSScanner.scan_region`: assembles the eight-entry result dict; the
global-scope categories are evaluated only in the home region, every other
region gets a literal empty dict for them. -/
def scan_region (region : String) (api : RegionApi) : Value :=
  .dict
    [("region", .str region),
     ("ec2", scan_ec2 api.ec2),
     ("s3", if isHomeRegion region then scan_s3 api.s3 else .dict []),
     ("rds", scan_rds api.rds),
     ("lambda", scan_lambda api.lambdaFns),
     ("vpc", scan_vpc api.vpc),
     ("iam", if isHomeRegion region then scan_iam api.iam else .dict []),
     ("cloudwatch", scan_cloudwatch api.cloudwatch)]

/-- `AWSScanner.get_all_regions`: the region enumeration call with its
documented fixed fallback list on failure. -/
def get_all_regions (call : Except String (List String)) : List String :=
  match call with
  | .ok regionNames => regionNames
  | .error _ => ["us-east-1", "ap-south-1"]

/-- A `RegionApi` in which every call succeeds with empty data. -/
def apiAllOk : RegionApi where
  ec2 := .ok []
  s3 := .ok []
  rds := .ok []
  lambdaFns := .ok []
  vpc := .ok (0, 0)
  iam := .ok (0, 0)
  cloudwatch := .ok 0

/-- A `RegionApi` in which every call raises the same exception. -/
def apiAllFail (e : String) : RegionApi where
  ec2 := .error e
  s3 := .error e
  rds := .error e
  lambdaFns := .error e
  vpc := .error e
  iam := .error e
  cloudwatch := .error e

/-! ## AssessmentAggregator: `app/services/bedrock_agents_service.py`

A model invocation (`invoke_agent`) is prompt-in/text-out; its outcome per
pillar is an environment `Except String String` (response text or raised
exception message).  The long system prompts are carried by the environment
rather than quoted: they never reach any modelled output. -/

/-- The six specialized agents in declaration order: pillar key, human-readable
agent name, focus areas (`self.agents` of `BedrockAgentsService.__init__`). -/
def agents : List (String × String × List String) :=
  [("operational_excellence", "Operational Excellence Agent",
      ["automation", "monitoring", "cicd", "incident_management"]),
   ("security", "Security Agent",
      ["iam", "encryption", "network_security", "compliance"]),
   ("reliability", "Reliability Agent",
      ["high_availability", "disaster_recovery", "fault_tolerance", "backup"]),
   ("performance_efficiency", "Performance Efficiency Agent",
      ["compute", "storage", "database", "network", "caching"]),
   ("cost_optimization", "Cost Optimization Agent",
      ["rightsizing", "pricing_models", "unused_resources", "storage_optimization"]),
   ("sustainability", "Sustainability Agent",
      ["carbon_footprint", "energy_efficiency", "resource_utilization", "serverless"])]

/-- Outcomes of the model invocations one `comprehensive_assessment` makes:
one per-pillar analysis call plus the executive-summary synthesis call. -/
structure AssessEnv where
  pillarCall : String → Except String String
  summaryCall : Except String String

/-- `BedrockAgentsService.analyze_pillar` for a pillar whose agent data is
`(name, focus)`: on success the four-field assessment dict, on a raised
invocation error the two-field dict carrying only the pillar and the error. -/
def analyze_pillar (name : String) (focus : List String) (pillar : String)
    (outcome : Except String String) : List (String × Value) :=
  match outcome with
  | .ok response =>
      [("pillar", .str pillar),
       ("agent", .str name),
       ("analysis", .str response),
       ("focus_areas", .list (focus.map .str))]
  | .error e =>
      [("pillar", .str pillar),
       ("error", .str e)]

/-- `BedrockAgentsService._generate_executive_summary`: the synthesis
text of the synthesis invocation, falling back to a fixed message if it raises. -/
def generate_executive_summary (call : Except String String) : String :=
  match call with
  | .ok response => response
  | .error _ => "Error generating executive summary"

/-- Python slicing of the first 200 characters followed by an ellipsis. -/
def pyTrunc (s : String) : String :=
  String.mk (s.data.take 200) ++ "..."

/-- `BedrockAgentsService._extract_priority_recommendations`: keeps every
assessment that has an `analysis` field, with a truncated summary. -/
def extract_priority_recommendations
    (assessments : List (String × List (String × Value))) : Value :=
  .list ((assessments.filter (fun a => (alookup a.2 "analysis").isSome)).map
    (fun a => Value.dict
      [("pillar", .str a.1),
       ("agent", (alookup a.2 "agent").getD .null),
       ("summary", match alookup a.2 "analysis" with
         | some (.str s) => .str (pyTrunc s)
         | _ => .null)]))

/-- `BedrockAgentsService.comprehensive_assessment`: one `analyze_pillar`
call per agent, collected in agent-declaration order, then the synthesis
call; `overall_score` is the hard-coded placeholder 7.5. -/
def comprehensive_assessment (env : AssessEnv) : Value :=
  let assessments := agents.map
    (fun a => (a.1, analyze_pillar a.2.1 a.2.2 a.1 (env.pillarCall a.1)))
  .dict
    [("executive_summary", .str (generate_executive_summary env.summaryCall)),
     ("pillar_assessments", .dict (assessments.map (fun a => (a.1, Value.dict a.2)))),
     ("overall_score", .rat 15 2),
     ("priority_recommendations", extract_priority_recommendations assessments)]

/-! ## ScanOrchestrator: `app/api/routes/scan.py` (`perform_scan`) and
`app/repositories/scan_repository.py` backed by `app/db/dynamodb.py`.

The persisted scan record is the typed shape created by
`ScanRepository.create_scan`; an update is the set of attributes one
`ScanRepository.update_scan` call names (DynamoDB `update_item` merges the
named attributes and leaves every other attribute untouched). -/

/-- The scan item as persisted by `ScanRepository.create_scan` (storage keys
included).  `started_at`/`completed_at` are absent at creation and can later
be set to None by the orchestrator, so both states are `none` here. -/
structure ScanRecord where
  pk : String
  sk : String
  gsi1pk : String
  gsi1sk : String
  scan_id : String
  user_id : String
  credential_id : String
  scan_name : String
  status : String
  progress : Nat
  regions_scanned : List String
  results : List (String × Value)
  ai_recommendations : String
  error_message : String
  started_at : Option String
  completed_at : Option String
  created_at : String
  updated_at : String

/-- `ScanRepository.create_scan` for externally supplied identity and clock
values (in the source, `uuid.uuid4()` and `datetime.utcnow()`). -/
def create_scan (user_id credential_id scan_name scan_id timestamp : String) :
    ScanRecord where
  pk := "USER#" ++ user_id
  sk := "SCAN#" ++ scan_id
  gsi1pk := "SCAN#" ++ scan_id
  gsi1sk := "TIMESTAMP#" ++ timestamp
  scan_id := scan_id
  user_id := user_id
  credential_id := credential_id
  scan_name := scan_name
  status := "pending"
  progress := 0
  regions_scanned := []
  results := []
  ai_recommendations := ""
  error_message := ""
  started_at := none
  completed_at := none
  created_at := timestamp
  updated_at := timestamp

/-- One `ScanRepository.update_scan` call: exactly the attributes the update
dict names (`some` = named, `none` = untouched).  A `some none` for
`started_at`/`completed_at` models the literal `None` attribute of the source
value.  `updated_at` is stamped by `update_scan` itself on every call. -/
structure ScanUpdate where
  status : Option String := none
  progress : Option Nat := none
  regions_scanned : Option (List String) := none
  results : Option (List (String × Value)) := none
  ai_recommendations : Option String := none
  error_message : Option String := none
  started_at : Option (Option String) := none
  completed_at : Option (Option String) := none
  updated_at : Option String := none

/-- DynamoDB `update_item` merge semantics on the scan item: each named
attribute is overwritten, every other attribute is left unchanged. -/
def applyUpdate (r : ScanRecord) (u : ScanUpdate) : ScanRecord where
  pk := r.pk
  sk := r.sk
  gsi1pk := r.gsi1pk
  gsi1sk := r.gsi1sk
  scan_id := r.scan_id
  user_id := r.user_id
  credential_id := r.credential_id
  scan_name := r.scan_name
  status := u.status.getD r.status
  progress := u.progress.getD r.progress
  regions_scanned := u.regions_scanned.getD r.regions_scanned
  results := u.results.getD r.results
  ai_recommendations := u.ai_recommendations.getD r.ai_recommendations
  error_message := u.error_message.getD r.error_message
  started_at := u.started_at.getD r.started_at
  completed_at := u.completed_at.getD r.completed_at
  created_at := r.created_at
  updated_at := u.updated_at.getD r.updated_at

/-- The sequence of store states a polling reader can observe: the record
before any update and after each successive single-item atomic update. -/
def recordStates (r : ScanRecord) : List ScanUpdate → List ScanRecord
  | [] => [r]
  | u :: us => r :: recordStates (applyUpdate r u) us

/-- Python upper-casing then underscore-to-space replacement on the pillar keys (lowercase
ASCII words joined by underscores): uppercase every letter and turn each
underscore into a space. -/
def pyUpperSpaced (s : String) : String :=
  String.mk (s.data.map (fun c => if c = '_' then ' ' else c.toUpper))

/-- The text the formatting loop interpolates for one pillar: the analysis
field when present, the N/A default otherwise
(the modelled assessments only ever hold string-valued analyses). -/
def analysisText (assessment : Value) : String :=
  match fieldOf assessment "analysis" with
  | some (.str s) => s
  | _ => "N/A"

/-- The section one pillar contributes to the formatted recommendations string. -/
def pillarSection (pillar : String) (assessment : Value) : String :=
  "\n\n" ++ pyUpperSpaced pillar ++ ":\n" ++ analysisText assessment ++ "\n"

/-- The pillar-assessment entries of a comprehensive-assessment result. -/
def pillarsOf (ca : Value) : List (String × Value) :=
  match fieldOf ca "pillar_assessments" with
  | some (.dict d) => d
  | _ => []

/-- The executive-summary text of a comprehensive-assessment result. -/
def summaryOf (ca : Value) : String :=
  match fieldOf ca "executive_summary" with
  | some (.str s) => s
  | _ => ""

/-- The formatting of `ai_recommendations` in `perform_scan`: the executive
summary header followed by one section per pillar assessment, in order. -/
def formatRecommendations (ca : Value) : String :=
  "EXECUTIVE SUMMARY:\n" ++ summaryOf ca ++ "\n\nPILLAR ASSESSMENTS:\n" ++
    String.join ((pillarsOf ca).map (fun p => pillarSection p.1 p.2))

/-- A stored AWS credential item (`CredentialRepository` shape); only the
two encrypted key fields are read by the orchestrator. -/
structure Credential where
  credential_id : String
  user_id : String
  credential_name : String
  encrypted_access_key : String
  encrypted_secret_key : String

/-- Everything external one `perform_scan` run can observe: the credential
lookup result, the decryption outcomes, the caller-supplied region list, the
region-enumeration call, the boto3 outcomes of every region, the model-invocation
outcomes, and the clock. -/
structure Env where
  credential : Option Credential
  decrypt : String → Except String String
  regionsArg : Option (List String)
  describeRegionsCall : Except String (List String)
  api : String → RegionApi
  assess : AssessEnv
  now : String

/-- The update persisting the transition to `running` (status plus a null
`started_at`, stamped like every `update_scan` call). -/
def runningUpdate (now : String) : ScanUpdate :=
  { status := some "running", started_at := some none, updated_at := some now }

/-- The update persisted by the top-level exception handler of `perform_scan`. -/
def failedUpdate (now msg : String) : ScanUpdate :=
  { status := some "failed", error_message := some msg, updated_at := some now }

/-- The update bumping progress to 85 before the assessment phase. -/
def progress85Update (now : String) : ScanUpdate :=
  { progress := some 85, updated_at := some now }

/-- The single final update persisting the formatted recommendations, the
`completed` status and progress 100 together. -/
def completedUpdate (now : String) (ca : Value) : ScanUpdate :=
  { status := some "completed",
    progress := some 100,
    ai_recommendations := some (formatRecommendations ca),
    completed_at := some none,
    updated_at := some now }

/-- The per-region updates of the scan loop: the running `all_results` dict
after inserting the summary of each region, its key list as `regions_scanned`,
and the recomputed progress `int(((idx + 1) / total) * 80)` (exact floor
semantics over Nat). -/
def scanLoopUpds (api : String → RegionApi) (now : String) (total : Nat) :
    List String → Nat → List (String × Value) → List ScanUpdate
  | [], _, _ => []
  | region :: rest, idx, acc =>
    let acc' := dictInsert acc region (scan_region region (api region))
    { progress := some ((idx + 1) * 80 / total),
      regions_scanned := some (acc'.map Prod.fst),
      results := some acc',
      updated_at := some now } :: scanLoopUpds api now total rest (idx + 1) acc'

/-- The `all_results` accumulator after scanning the given regions. -/
def loopAcc (api : String → RegionApi) :
    List String → List (String × Value) → List (String × Value)
  | [], acc => acc
  | region :: rest, acc =>
    loopAcc api rest (dictInsert acc region (scan_region region (api region)))

/-- The region list `perform_scan` actually iterates: the caller-supplied
list unless it is falsy (`None` or empty), in which case the enumerated
(or fallback) list from `get_all_regions`. -/
def effectiveRegions (regionsArg : Option (List String))
    (call : Except String (List String)) : List String :=
  match regionsArg with
  | none => get_all_regions call
  | some [] => get_all_regions call
  | some rs => rs

/-- One `perform_scan` run: the ordered sequence of `update_scan` calls it
issues, plus the ordered list of `scanner.scan_region` invocations made. -/
structure ScanRun where
  updates : List ScanUpdate
  scanned : List String

/-- `perform_scan` (`app/api/routes/scan.py`): transition to `running`,
resolve and decrypt the credential (any raised exception lands in the
top-level handler as a single `failed` update), scan each region persisting
incremental progress, bump progress to 85, run the multi-agent assessment,
and persist the formatted recommendations together with the `completed`
status in one final update. -/
def perform_scan (env : Env) : ScanRun :=
  match env.credential with
  | none => ⟨[runningUpdate env.now, failedUpdate env.now "Credential not found"], []⟩
  | some cred =>
    match env.decrypt cred.encrypted_access_key with
    | .error e => ⟨[runningUpdate env.now, failedUpdate env.now e], []⟩
    | .ok _ =>
      match env.decrypt cred.encrypted_secret_key with
      | .error e => ⟨[runningUpdate env.now, failedUpdate env.now e], []⟩
      | .ok _ =>
        let regions := effectiveRegions env.regionsArg env.describeRegionsCall
        ⟨runningUpdate env.now ::
          scanLoopUpds env.api env.now regions.length regions 0 [] ++
          [progress85Update env.now,
           completedUpdate env.now (comprehensive_assessment env.assess)],
         regions⟩

/-! ## Read path: `get_scan` and `ScanRepository.get_scan_by_id` -/

/-- `DynamoDBClient.query_gsi` on index GSI1 over a table of scan items:
every item whose index partition key equals the requested one. -/
def query_gsi_scans (table : List ScanRecord) (gsi1pk : String) : List ScanRecord :=
  table.filter (fun item => item.gsi1pk == gsi1pk)

/-- `ScanRepository.get_scan_by_id`: direct identity lookup through the
secondary index, first match or None. -/
def get_scan_by_id (table : List ScanRecord) (scan_id : String) : Option ScanRecord :=
  (query_gsi_scans table ("SCAN#" ++ scan_id)).head?

/-- The `GET /scans/scan_id` route body: resolve by identity, then reject
with the same 404 as a missing scan unless the requester owns it.  The
success payload is a field-by-field projection of the record, modelled by
the record itself. -/
def get_scan (table : List ScanRecord) (scan_id : String)
    (current_user_id : String) : Except (Nat × String) ScanRecord :=
  match get_scan_by_id table scan_id with
  | none => .error (404, "Scan not found")
  | some scan =>
    if scan.user_id == current_user_id then .ok scan
    else .error (404, "Scan not found")

/-! ## KeyValueStore: `app/db/dynamodb.py` (`DynamoDBClient`)

Every method wraps one boto3 table call in `try/except ClientError`; the
backend outcome is either the table contents the call runs against or a
raised `ClientError` with a message.  What each method returns to its caller
on either outcome is exactly what the claims about the store contract are
about. -/

/-- One row of the single physical table: composite primary key, optional
secondary-index key pair, and the remaining attributes of the item. -/
structure TableItem where
  PK : String
  SK : String
  GSI1PK : Option String
  GSI1SK : Option String
  attrs : List (String × Value)

/-- Outcome of one boto3 table call: the table it successfully ran against,
or a raised `ClientError` with its message. -/
inductive Backend where
  | ok (table : List TableItem)
  | clientError (msg : String)

/-- `DynamoDBClient.put_item`: True on success, False when the call raises
`ClientError`; the error itself is logged and swallowed. -/
def put_item (b : Backend) (_item : TableItem) : Bool :=
  match b with
  | .ok _ => true
  | .clientError _ => false

/-- `DynamoDBClient.get_item`: the item under the requested key if present;
None both when the key is absent and when the call raises `ClientError`. -/
def get_item (b : Backend) (pk sk : String) : Option TableItem :=
  match b with
  | .ok table => table.find? (fun it => it.PK == pk && it.SK == sk)
  | .clientError _ => none

/-- `DynamoDBClient.query_by_pk`: every item of the partition, optionally
narrowed by a sort-key prefix (`begins_with`); the empty list both when no
row matches and when the call raises `ClientError`. -/
def query_by_pk (b : Backend) (pk : String) (skPre : Option String) :
    List TableItem :=
  match b with
  | .ok table => table.filter (fun it =>
      it.PK == pk &&
      match skPre with
      | some p => it.SK.startsWith p
      | none => true)
  | .clientError _ => []

/-- `DynamoDBClient.query_gsi`: every item matching the secondary-index
partition key and, when given, the index sort key; the empty list both when
no row matches and when the call raises `ClientError`. -/
def query_gsi (b : Backend) (gsiPk : String) (gsiSk : Option String) :
    List TableItem :=
  match b with
  | .ok table => table.filter (fun it =>
      it.GSI1PK == some gsiPk &&
      match gsiSk with
      | some s => it.GSI1SK == some s
      | none => true)
  | .clientError _ => []

/-- `DynamoDBClient.update_item`: True on success, False when the call
raises `ClientError` (the attribute merge itself is modelled at the
repository level by `applyUpdate`). -/
def update_item (b : Backend) (_pk _sk : String) (_updates : List (String × Value)) :
    Bool :=
  match b with
  | .ok _ => true
  | .clientError _ => false

/-- `DynamoDBClient.delete_item`: True on success, False when the call
raises `ClientError`. -/
def delete_item (b : Backend) (_pk _sk : String) : Bool :=
  match b with
  | .ok _ => true
  | .clientError _ => false

/-! ## Concrete evaluation environments -/

/-- An orchestration environment in which every external call succeeds. -/
def envOk (regionsArg : Option (List String)) : Env where
  credential := some ⟨"c1", "u1", "prod keys", "enc-ak", "enc-sk"⟩
  decrypt := fun s => .ok s
  regionsArg := regionsArg
  describeRegionsCall := .ok ["us-east-1"]
  api := fun _ => apiAllOk
  assess := ⟨fun _ => .ok "analysis text", .ok "summary text"⟩
  now := "T1"

/-- The all-successful environment except that the credential id resolves
to nothing. -/
def envNoCred : Env :=
  { envOk none with credential := none }

/-- An assessment environment in which the invocation for the security pillar
raises and every other invocation succeeds. -/
def assessSecFail : AssessEnv where
  pillarCall := fun p => if p == "security" then .error "ThrottlingException" else .ok "pillar analysis"
  summaryCall := .ok "summary text"

/-- A one-scan store owned by `userA`, for the ownership claims. -/
def tableA : List ScanRecord :=
  [create_scan "userA" "c1" "prod scan" "s1" "T0"]

/-- The list of keys of a dict-shaped value. -/
def keysOf (v : Value) : List String :=
  match v with
  | .dict d => d.map Prod.fst
  | _ => []

/-- Whether the value under key `k` exists and is a dict. -/
def isDictAt (v : Value) (k : String) : Bool :=
  match fieldOf v k with
  | some w => w.isDict
  | none => false

/-- The status transitions the orchestrator may perform between two
consecutively observable store states: leaving the status unchanged
(progress updates), pending to running, or running to a terminal state. -/
def scanStep (s t : String) : Prop :=
  t = s ∨ (s = "pending" ∧ t = "running") ∨
    (s = "running" ∧ (t = "completed" ∨ t = "failed"))

/-! ## Scanner lemmas and the RegionScanner claims -/

theorem scan_ec2_isDict (c : Except String (List (List Ec2Instance))) :
    (scan_ec2 c).isDict = true := by
  cases c <;> rfl

theorem scan_s3_isDict (c : Except String (List S3Bucket)) :
    (scan_s3 c).isDict = true := by
  cases c <;> rfl

theorem scan_rds_isDict (c : Except String (List RdsInstance)) :
    (scan_rds c).isDict = true := by
  cases c <;> rfl

theorem scan_lambda_isDict (c : Except String (List LambdaFunction)) :
    (scan_lambda c).isDict = true := by
  cases c <;> rfl

theorem scan_vpc_isDict (c : Except String (Nat × Nat)) :
    (scan_vpc c).isDict = true := by
  rcases c with ⟨a, b⟩ | e <;> rfl

theorem scan_iam_isDict (c : Except String (Nat × Nat)) :
    (scan_iam c).isDict = true := by
  rcases c with ⟨a, b⟩ | e <;> rfl

theorem scan_cloudwatch_isDict (c : Except String Nat) :
    (scan_cloudwatch c).isDict = true := by
  cases c <;> rfl

theorem scan_region_field_region (region : String) (api : RegionApi) :
    fieldOf (scan_region region api) "region" = some (.str region) := rfl

theorem scan_region_field_ec2 (region : String) (api : RegionApi) :
    fieldOf (scan_region region api) "ec2" = some (scan_ec2 api.ec2) := rfl

theorem scan_region_field_s3 (region : String) (api : RegionApi) :
    fieldOf (scan_region region api) "s3" =
      some (if isHomeRegion region then scan_s3 api.s3 else .dict []) := rfl

theorem scan_region_field_rds (region : String) (api : RegionApi) :
    fieldOf (scan_region region api) "rds" = some (scan_rds api.rds) := rfl

theorem scan_region_field_lambda (region : String) (api : RegionApi) :
    fieldOf (scan_region region api) "lambda" = some (scan_lambda api.lambdaFns) := rfl

theorem scan_region_field_vpc (region : String) (api : RegionApi) :
    fieldOf (scan_region region api) "vpc" = some (scan_vpc api.vpc) := rfl

theorem scan_region_field_iam (region : String) (api : RegionApi) :
    fieldOf (scan_region region api) "iam" =
      some (if isHomeRegion region then scan_iam api.iam else .dict []) := rfl

theorem scan_region_field_cloudwatch (region : String) (api : RegionApi) :
    fieldOf (scan_region region api) "cloudwatch" =
      some (scan_cloudwatch api.cloudwatch) := rfl

/-- C10 counterexample.  The claim asserts that each of the eight keys of a
`scan_region` result is bound to a dictionary; in the code the `region` key
is bound to the region name, a string, not a dictionary. -/
theorem C10_counterexample :
    fieldOf (scan_region "eu-west-1" apiAllOk) "region" = some (Value.str "eu-west-1") ∧
    (Value.str "eu-west-1").isDict = false :=
  ⟨rfl, rfl⟩

/-- C10 (amended): for every region argument and every combination of
per-category call outcomes, `scan_region` is total and returns a mapping
with exactly the eight keys region, ec2, s3, rds, lambda, vpc, iam and
cloudwatch; the seven category keys are each bound to a dictionary
(the literal empty dictionary for the global-scope categories outside the
home region), while the region key is bound to the region name string. -/
theorem C10_amended (region : String) (api : RegionApi) :
    keysOf (scan_region region api) =
      ["region", "ec2", "s3", "rds", "lambda", "vpc", "iam", "cloudwatch"] ∧
    fieldOf (scan_region region api) "region" = some (.str region) ∧
    isDictAt (scan_region region api) "ec2" = true ∧
    isDictAt (scan_region region api) "s3" = true ∧
    isDictAt (scan_region region api) "rds" = true ∧
    isDictAt (scan_region region api) "lambda" = true ∧
    isDictAt (scan_region region api) "vpc" = true ∧
    isDictAt (scan_region region api) "iam" = true ∧
    isDictAt (scan_region region api) "cloudwatch" = true := by
  refine ⟨rfl, rfl, ?_, ?_, ?_, ?_, ?_, ?_, ?_⟩ <;>
    simp only [isDictAt, scan_region_field_ec2, scan_region_field_s3,
      scan_region_field_rds, scan_region_field_lambda, scan_region_field_vpc,
      scan_region_field_iam, scan_region_field_cloudwatch]
  · exact scan_ec2_isDict api.ec2
  · cases h : isHomeRegion region
    · rfl
    · exact scan_s3_isDict api.s3
  · exact scan_rds_isDict api.rds
  · exact scan_lambda_isDict api.lambdaFns
  · exact scan_vpc_isDict api.vpc
  · cases h : isHomeRegion region
    · rfl
    · exact scan_iam_isDict api.iam
  · exact scan_cloudwatch_isDict api.cloudwatch

/-- C4 counterexample.  The claim asserts that a failing category produces
a partial result of the shape with a zero `count` and an `error` message,
for every category.  A failing VPC scan produces a partial result with an
`error` message but no `count` key at all (only zeroed `vpcs` and
`security_groups` counters), so the claimed shape is wrong for the
vpc, iam and cloudwatch categories. -/
theorem C4_counterexample :
    fieldOf (scan_region "eu-west-1" { apiAllOk with vpc := .error "AccessDenied" }) "vpc" =
      some (Value.dict [("vpcs", .num 0), ("security_groups", .num 0),
                        ("error", .str "AccessDenied")]) ∧
    alookup [("vpcs", Value.num 0), ("security_groups", .num 0),
             ("error", .str "AccessDenied")] "count" = none :=
  ⟨rfl, rfl⟩

/-- C4 (amended): a failure in one resource category produces for that
category a partial result carrying an `error` message and zeroed counters —
with `count: 0` for the list-shaped categories ec2, s3, rds and lambda, and
zeroed per-category counters without a `count` key for vpc, iam and
cloudwatch — while the summary of every other category is still produced from
its own call alone, so the failure never aborts the scan of the other
categories or of the region. -/
theorem C4_amended (region : String) (api : RegionApi) (e : String) :
    (api.ec2 = .error e → fieldOf (scan_region region api) "ec2" =
      some (.dict [("instances", .list []), ("count", .num 0), ("error", .str e)])) ∧
    (isHomeRegion region = true → api.s3 = .error e →
      fieldOf (scan_region region api) "s3" =
        some (.dict [("buckets", .list []), ("count", .num 0), ("error", .str e)])) ∧
    (api.rds = .error e → fieldOf (scan_region region api) "rds" =
      some (.dict [("databases", .list []), ("count", .num 0), ("error", .str e)])) ∧
    (api.lambdaFns = .error e → fieldOf (scan_region region api) "lambda" =
      some (.dict [("functions", .list []), ("count", .num 0), ("error", .str e)])) ∧
    (api.vpc = .error e → fieldOf (scan_region region api) "vpc" =
      some (.dict [("vpcs", .num 0), ("security_groups", .num 0), ("error", .str e)])) ∧
    (isHomeRegion region = true → api.iam = .error e →
      fieldOf (scan_region region api) "iam" =
        some (.dict [("users", .num 0), ("roles", .num 0), ("error", .str e)])) ∧
    (api.cloudwatch = .error e → fieldOf (scan_region region api) "cloudwatch" =
      some (.dict [("alarms", .num 0), ("error", .str e)])) ∧
    fieldOf (scan_region region api) "ec2" = some (scan_ec2 api.ec2) ∧
    fieldOf (scan_region region api) "s3" =
      some (if isHomeRegion region then scan_s3 api.s3 else .dict []) ∧
    fieldOf (scan_region region api) "rds" = some (scan_rds api.rds) ∧
    fieldOf (scan_region region api) "lambda" = some (scan_lambda api.lambdaFns) ∧
    fieldOf (scan_region region api) "vpc" = some (scan_vpc api.vpc) ∧
    fieldOf (scan_region region api) "iam" =
      some (if isHomeRegion region then scan_iam api.iam else .dict []) ∧
    fieldOf (scan_region region api) "cloudwatch" = some (scan_cloudwatch api.cloudwatch) ∧
    keysOf (scan_region region api) =
      ["region", "ec2", "s3", "rds", "lambda", "vpc", "iam", "cloudwatch"] := by
  refine ⟨?_, ?_, ?_, ?_, ?_, ?_, ?_, rfl, rfl, rfl, rfl, rfl, rfl, rfl, rfl⟩
  · intro h; rw [scan_region_field_ec2, h]; rfl
  · intro hh h; rw [scan_region_field_s3, hh, h]; rfl
  · intro h; rw [scan_region_field_rds, h]; rfl
  · intro h; rw [scan_region_field_lambda, h]; rfl
  · intro h; rw [scan_region_field_vpc, h]; rfl
  · intro hh h; rw [scan_region_field_iam, hh, h]; rfl
  · intro h; rw [scan_region_field_cloudwatch, h]; rfl

/-- C4 witness: the amended theorem evaluated in the home region with every
category call failing at once; every hypothesis is discharged concretely. -/
theorem C4_witness :
    fieldOf (scan_region "us-east-1" (apiAllFail "Denied")) "ec2" =
      some (.dict [("instances", .list []), ("count", .num 0), ("error", .str "Denied")]) ∧
    fieldOf (scan_region "us-east-1" (apiAllFail "Denied")) "s3" =
      some (.dict [("buckets", .list []), ("count", .num 0), ("error", .str "Denied")]) ∧
    fieldOf (scan_region "us-east-1" (apiAllFail "Denied")) "vpc" =
      some (.dict [("vpcs", .num 0), ("security_groups", .num 0), ("error", .str "Denied")]) ∧
    fieldOf (scan_region "us-east-1" (apiAllFail "Denied")) "cloudwatch" =
      some (.dict [("alarms", .num 0), ("error", .str "Denied")]) := by
  have h := C4_amended "us-east-1" (apiAllFail "Denied") "Denied"
  exact ⟨h.1 rfl, h.2.1 rfl rfl, h.2.2.2.2.1 rfl, h.2.2.2.2.2.2.1 rfl⟩

/-! ## KeyValueStore claims -/

/-- C9 counterexample.  The claim asserts that every store operation
reports its failure as a typed error such as NotFound or
BackendUnavailable.  In the code every method swallows the raised
`ClientError`: a `get_item` call whose backend raises returns the same
plain `None` as a successful lookup of an absent key, so the caller
receives no typed error at all and cannot even distinguish
backend-unavailable from not-found. -/
theorem C9_counterexample :
    get_item (Backend.clientError "BackendUnavailable") "USER#u1" "PROFILE" = none ∧
    get_item (Backend.ok []) "USER#u1" "PROFILE" = none ∧
    get_item (Backend.clientError "BackendUnavailable") "USER#u1" "PROFILE" =
      get_item (Backend.ok []) "USER#u1" "PROFILE" :=
  ⟨rfl, rfl, rfl⟩

/-- C9 (amended): every KeyValueStore operation catches the raised backend
client error and signals failure only through a sentinel return value —
False for put/update/delete, None for get, the empty list for the two
query operations — conflating backend failure with not-found; and the
query operations never throw when no rows match, returning the empty
list instead. -/
theorem C9_amended (msg pk sk gsiPk : String) (skPre gsiSk : Option String)
    (table : List TableItem) (item : TableItem) (ups : List (String × Value)) :
    put_item (.clientError msg) item = false ∧
    put_item (.ok table) item = true ∧
    get_item (.clientError msg) pk sk = none ∧
    update_item (.clientError msg) pk sk ups = false ∧
    update_item (.ok table) pk sk ups = true ∧
    delete_item (.clientError msg) pk sk = false ∧
    delete_item (.ok table) pk sk = true ∧
    query_by_pk (.clientError msg) pk skPre = [] ∧
    query_gsi (.clientError msg) gsiPk gsiSk = [] ∧
    ((∀ it ∈ table, it.PK ≠ pk) → query_by_pk (.ok table) pk skPre = []) ∧
    ((∀ it ∈ table, it.GSI1PK ≠ some gsiPk) → query_gsi (.ok table) gsiPk gsiSk = []) := by
  refine ⟨rfl, rfl, rfl, rfl, rfl, rfl, rfl, rfl, rfl, ?_, ?_⟩
  · intro h
    simp only [query_by_pk, List.filter_eq_nil_iff]
    intro it hit
    simp only [Bool.and_eq_true, beq_iff_eq, not_and]
    intro hpk
    exact absurd hpk (h it hit)
  · intro h
    simp only [query_gsi, List.filter_eq_nil_iff]
    intro it hit
    simp only [Bool.and_eq_true, beq_iff_eq, not_and]
    intro hpk
    exact absurd hpk (h it hit)

/-- C9 witness: the amended theorem at a concrete one-row table whose row
matches neither the queried partition key nor the queried index key. -/
theorem C9_witness :
    put_item (.clientError "Unavailable") ⟨"USER#u1", "PROFILE", none, none, []⟩ = false ∧
    get_item (.clientError "Unavailable") "USER#u1" "PROFILE" = none ∧
    query_by_pk (.ok [⟨"USER#u2", "PROFILE", none, none, []⟩]) "USER#u1" (some "SCAN#") = [] ∧
    query_gsi (.ok [⟨"USER#u2", "PROFILE", none, none, []⟩]) "SCAN#s1" none = [] := by
  have h := C9_amended "Unavailable" "USER#u1" "PROFILE" "SCAN#s1" (some "SCAN#") none
    [⟨"USER#u2", "PROFILE", none, none, []⟩] ⟨"USER#u1", "PROFILE", none, none, []⟩ []
  refine ⟨h.1, h.2.2.1, h.2.2.2.2.2.2.2.2.2.1 ?_, h.2.2.2.2.2.2.2.2.2.2 ?_⟩
  · intro it hit
    rw [List.mem_singleton] at hit
    subst hit
    decide
  · intro it hit
    rw [List.mem_singleton] at hit
    subst hit
    simp

/-! ## Ownership claim -/

/-- C7: when the secondary-index lookup of a scan id resolves to a scan
item whose owner is not the requesting user, the read route rejects the
request with 404 "Scan not found" — exactly the outcome produced for a
scan id that resolves to nothing. -/
theorem C7_ownership (table : List ScanRecord) (scan_id userB : String)
    (s : ScanRecord) (hfind : get_scan_by_id table scan_id = some s)
    (howner : s.user_id ≠ userB) :
    get_scan table scan_id userB = .error (404, "Scan not found") ∧
    ∀ (table2 : List ScanRecord) (sid2 : String),
      get_scan_by_id table2 sid2 = none →
      get_scan table2 sid2 userB = .error (404, "Scan not found") := by
  constructor
  · simp only [get_scan, hfind]
    rw [if_neg]
    simp only [beq_iff_eq]
    exact howner
  · intro table2 sid2 h
    simp only [get_scan, h]

/-! ## Orchestrator unfolding lemmas -/

theorem perform_scan_eq_noCred (env : Env) (hc : env.credential = none) :
    perform_scan env =
      ⟨[runningUpdate env.now, failedUpdate env.now "Credential not found"], []⟩ := by
  unfold perform_scan
  rw [hc]

theorem perform_scan_eq_badAccessKey (env : Env) (cred : Credential) (e : String)
    (hc : env.credential = some cred)
    (hda : env.decrypt cred.encrypted_access_key = .error e) :
    perform_scan env = ⟨[runningUpdate env.now, failedUpdate env.now e], []⟩ := by
  unfold perform_scan
  simp only [hc, hda]

theorem perform_scan_eq_badSecretKey (env : Env) (cred : Credential) (ak e : String)
    (hc : env.credential = some cred)
    (hda : env.decrypt cred.encrypted_access_key = .ok ak)
    (hds : env.decrypt cred.encrypted_secret_key = .error e) :
    perform_scan env = ⟨[runningUpdate env.now, failedUpdate env.now e], []⟩ := by
  unfold perform_scan
  simp only [hc, hda, hds]

theorem perform_scan_eq_ok (env : Env) (cred : Credential) (ak sk2 : String)
    (hc : env.credential = some cred)
    (hda : env.decrypt cred.encrypted_access_key = .ok ak)
    (hds : env.decrypt cred.encrypted_secret_key = .ok sk2) :
    perform_scan env =
      ⟨runningUpdate env.now ::
        scanLoopUpds env.api env.now
          (effectiveRegions env.regionsArg env.describeRegionsCall).length
          (effectiveRegions env.regionsArg env.describeRegionsCall) 0 [] ++
        [progress85Update env.now,
         completedUpdate env.now (comprehensive_assessment env.assess)],
       effectiveRegions env.regionsArg env.describeRegionsCall⟩ := by
  unfold perform_scan
  simp only [hc, hda, hds]

/-! ## Scan-loop lemmas -/

theorem scanLoopUpds_length (api : String → RegionApi) (now : String) (total : Nat) :
    ∀ (rs : List String) (idx : Nat) (acc : List (String × Value)),
      (scanLoopUpds api now total rs idx acc).length = rs.length := by
  intro rs
  induction rs with
  | nil => intro idx acc; rfl
  | cons r rest ih =>
    intro idx acc
    simp only [scanLoopUpds, List.length_cons, ih]

theorem scanLoopUpds_mem (api : String → RegionApi) (now : String) (total : Nat) :
    ∀ (rs : List String) (idx : Nat) (acc : List (String × Value)),
      ∀ u ∈ scanLoopUpds api now total rs idx acc,
        u.status = none ∧ u.ai_recommendations = none ∧ u.error_message = none := by
  intro rs
  induction rs with
  | nil => intro idx acc u hu; cases hu
  | cons r rest ih =>
    intro idx acc u hu
    rcases hu with _ | hu
    · exact ⟨rfl, rfl, rfl⟩
    · exact ih (idx + 1) _ u (by assumption)

theorem dictInsert_fresh (d : List (String × Value)) (k : String) (v : Value)
    (h : k ∉ d.map Prod.fst) : dictInsert d k v = d ++ [(k, v)] := by
  have hany : d.any (fun p => p.1 == k) = false := by
    rw [List.any_eq_false]
    intro p hp
    simp only [beq_iff_eq]
    intro hpk
    exact h (hpk ▸ List.mem_map_of_mem Prod.fst hp)
  simp [dictInsert, hany]

theorem loopAcc_keys (api : String → RegionApi) :
    ∀ (rs : List String) (acc : List (String × Value)),
      (acc.map Prod.fst ++ rs).Nodup →
      (loopAcc api rs acc).map Prod.fst = acc.map Prod.fst ++ rs := by
  intro rs
  induction rs with
  | nil => intro acc _; simp [loopAcc]
  | cons r rest ih =>
    intro acc h
    have hr : r ∉ acc.map Prod.fst := by
      intro hmem
      have hd := (List.nodup_append.mp h).2.2
      exact hd hmem (List.mem_cons_self r rest)
    have hstep : dictInsert acc r (scan_region r (api r)) = acc ++ [(r, scan_region r (api r))] :=
      dictInsert_fresh _ _ _ hr
    have hkeys : (acc ++ [(r, scan_region r (api r))]).map Prod.fst = acc.map Prod.fst ++ [r] := by
      simp
    have hnodup : ((acc ++ [(r, scan_region r (api r))]).map Prod.fst ++ rest).Nodup := by
      rw [hkeys, List.append_assoc, List.singleton_append]
      exact h
    calc (loopAcc api (r :: rest) acc).map Prod.fst
        = (loopAcc api rest (acc ++ [(r, scan_region r (api r))])).map Prod.fst := by
          rw [loopAcc, hstep]
      _ = (acc ++ [(r, scan_region r (api r))]).map Prod.fst ++ rest := ih _ hnodup
      _ = acc.map Prod.fst ++ r :: rest := by
          rw [hkeys, List.append_assoc, List.singleton_append]

theorem alookup_isSome_of_mem (d : List (String × Value)) (k : String)
    (h : k ∈ d.map Prod.fst) : (alookup d k).isSome = true := by
  induction d with
  | nil => cases h
  | cons p rest ih =>
    by_cases hk : p.1 == k
    · simp [alookup, hk]
    · have : k ∈ rest.map Prod.fst := by
        rcases List.mem_map.mp h with ⟨q, hq, hqk⟩
        rcases hq with _ | hq
        · exact absurd (beq_iff_eq.mpr hqk) hk
        · exact hqk ▸ List.mem_map_of_mem Prod.fst (by assumption)
      simp [alookup, hk, ih this]

theorem loop_foldl (api : String → RegionApi) (now : String) (total : Nat) :
    ∀ (k : Nat) (rs : List String) (idx : Nat) (acc : List (String × Value))
      (r0 : ScanRecord), 1 ≤ k → k ≤ rs.length →
      List.foldl applyUpdate r0 ((scanLoopUpds api now total rs idx acc).take k) =
        { r0 with
          progress := (idx + k) * 80 / total,
          regions_scanned := (loopAcc api (rs.take k) acc).map Prod.fst,
          results := loopAcc api (rs.take k) acc,
          updated_at := now } := by
  intro k
  induction k with
  | zero => intro rs idx acc r0 h1 _; cases h1
  | succ k ih =>
    intro rs idx acc r0 _ hk
    match rs with
    | [] => simp at hk
    | r :: rest =>
      rw [scanLoopUpds]
      rw [List.take_succ_cons, List.foldl_cons]
      match k with
      | 0 =>
        simp only [List.take_zero, List.foldl_nil, List.take_succ_cons, loopAcc]
        rfl
      | k' + 1 =>
        have hk' : k' + 1 ≤ rest.length := by
          simpa using hk
        rw [ih rest (idx + 1) _ _ (Nat.le_add_left 1 k') hk']
        have harith : idx + 1 + (k' + 1) = idx + (k' + 1 + 1) := by omega
        rw [harith]
        rfl

/-! ## Record-state lemmas -/

theorem foldl_mem_recordStates :
    ∀ (us : List ScanUpdate) (r : ScanRecord),
      List.foldl applyUpdate r us ∈ recordStates r us := by
  intro us
  induction us with
  | nil => intro r; exact List.mem_singleton.mpr rfl
  | cons u rest ih =>
    intro r
    rw [List.foldl_cons, recordStates]
    exact List.mem_cons_of_mem r (ih (applyUpdate r u))

theorem recordStates_pred (P : ScanRecord → Prop) :
    ∀ (us : List ScanUpdate) (r : ScanRecord), P r →
      (∀ u ∈ us, ∀ s, P s → P (applyUpdate s u)) →
      ∀ rec ∈ recordStates r us, P rec := by
  intro us
  induction us with
  | nil =>
    intro r hr _ rec hrec
    rw [recordStates, List.mem_singleton] at hrec
    exact hrec ▸ hr
  | cons u rest ih =>
    intro r hr hpres rec hrec
    rw [recordStates] at hrec
    rcases List.mem_cons.mp hrec with h | h
    · exact h ▸ hr
    · exact ih (applyUpdate r u) (hpres u (List.mem_cons_self u rest) r hr)
        (fun v hv => hpres v (List.mem_cons_of_mem u hv)) rec h

theorem foldl_status_none :
    ∀ (us : List ScanUpdate) (r : ScanRecord), (∀ u ∈ us, u.status = none) →
      (List.foldl applyUpdate r us).status = r.status := by
  intro us
  induction us with
  | nil => intro r _; rfl
  | cons u rest ih =>
    intro r h
    rw [List.foldl_cons, ih _ (fun v hv => h v (List.mem_cons_of_mem u hv))]
    show (u.status.getD r.status) = r.status
    rw [h u (List.mem_cons_self u rest)]
    rfl

theorem recordStates_status_none (vs : List ScanUpdate) :
    ∀ (us : List ScanUpdate), (∀ u ∈ us, u.status = none) →
      ∀ (r : ScanRecord),
      (recordStates r (us ++ vs)).map (fun x => x.status) =
        List.replicate us.length r.status ++
          (recordStates (List.foldl applyUpdate r us) vs).map (fun x => x.status) := by
  intro us
  induction us with
  | nil => intro _ r; simp
  | cons u rest ih =>
    intro h r
    have hu : u.status = none := h u (List.mem_cons_self u rest)
    have hstat : (applyUpdate r u).status = r.status := by
      show (u.status.getD r.status) = r.status
      rw [hu]; rfl
    rw [List.cons_append, recordStates, List.map_cons,
      ih (fun v hv => h v (List.mem_cons_of_mem u hv)) (applyUpdate r u), hstat,
      List.foldl_cons]
    rfl

/-! ## Global-scope category claim -/

theorem length_le_one_of_nodup_all_eq {l : List String} (c : String)
    (hn : l.Nodup) (he : ∀ x ∈ l, x = c) : l.length ≤ 1 := by
  match l with
  | [] => simp
  | [a] => simp
  | a :: b :: t =>
    exfalso
    have ha := he a (by simp)
    have hb := he b (by simp)
    rw [List.nodup_cons] at hn
    exact hn.1 (by simp [ha, hb])

/-- C8 counterexample.  The claim asserts the global-scope categories are
evaluated at most once per scan; a caller-supplied region list may repeat
the home region (the API applies no deduplication), and the loop then
invokes the home-region scan — and with it the object-storage and identity
scanners — once per occurrence. -/
theorem C8_counterexample :
    ((perform_scan (envOk (some ["us-east-1", "us-east-1"]))).scanned.filter
      isHomeRegion).length = 2 ∧
    ¬((perform_scan (envOk (some ["us-east-1", "us-east-1"]))).scanned.filter
      isHomeRegion).length ≤ 1 := by
  constructor
  · rfl
  · decide

/-- C8 (amended): provided the scanned region list has no duplicate
entries, the global-scope categories (object storage and identity) are
evaluated at most once per scan — only the home region us-east-1 passes
the evaluation guard — and for every other region their entries are the
literal empty dict, identical under every API environment, so their
resources are never counted more than once across distinct regions. -/
theorem C8_amended (env : Env)
    (h : (effectiveRegions env.regionsArg env.describeRegionsCall).Nodup) :
    ((perform_scan env).scanned.filter isHomeRegion).length ≤ 1 ∧
    (∀ r ∈ (perform_scan env).scanned, isHomeRegion r = true → r = "us-east-1") ∧
    (∀ r, isHomeRegion r = false → ∀ api1 api2 : RegionApi,
      fieldOf (scan_region r api1) "s3" = some (.dict []) ∧
      fieldOf (scan_region r api1) "iam" = some (.dict []) ∧
      fieldOf (scan_region r api1) "s3" = fieldOf (scan_region r api2) "s3" ∧
      fieldOf (scan_region r api1) "iam" = fieldOf (scan_region r api2) "iam") := by
  have hscanned : (perform_scan env).scanned = [] ∨
      (perform_scan env).scanned = effectiveRegions env.regionsArg env.describeRegionsCall := by
    rcases hc : env.credential with _ | cred
    · rw [perform_scan_eq_noCred env hc]
      exact Or.inl rfl
    · rcases hda : env.decrypt cred.encrypted_access_key with e | a
      · rw [perform_scan_eq_badAccessKey env cred e hc hda]
        exact Or.inl rfl
      · rcases hds : env.decrypt cred.encrypted_secret_key with e | a'
        · rw [perform_scan_eq_badSecretKey env cred a e hc hda hds]
          exact Or.inl rfl
        · rw [perform_scan_eq_ok env cred a a' hc hda hds]
          exact Or.inr rfl
  refine ⟨?_, ?_, ?_⟩
  · rcases hscanned with hs | hs
    · simp [hs]
    · rw [hs]
      refine length_le_one_of_nodup_all_eq "us-east-1" (h.filter _) ?_
      intro x hx
      have := (List.mem_filter.mp hx).2
      simpa [isHomeRegion] using this
  · intro r _ hr
    simpa [isHomeRegion] using hr
  · intro r hr api1 api2
    have h3 : fieldOf (scan_region r api1) "s3" = some (.dict []) := by
      rw [scan_region_field_s3, hr]; rfl
    have h4 : fieldOf (scan_region r api1) "iam" = some (.dict []) := by
      rw [scan_region_field_iam, hr]; rfl
    have h5 : fieldOf (scan_region r api2) "s3" = some (.dict []) := by
      rw [scan_region_field_s3, hr]; rfl
    have h6 : fieldOf (scan_region r api2) "iam" = some (.dict []) := by
      rw [scan_region_field_iam, hr]; rfl
    exact ⟨h3, h4, h3.trans h5.symm, h4.trans h6.symm⟩

/-- C8 witness: the amended theorem on a duplicate-free two-region scan;
the global-scope entries of the non-home region are empty and API-independent. -/
theorem C8_witness :
    ((perform_scan (envOk (some ["us-east-1", "eu-west-1"]))).scanned.filter
      isHomeRegion).length ≤ 1 ∧
    fieldOf (scan_region "eu-west-1" apiAllOk) "s3" = some (.dict []) ∧
    fieldOf (scan_region "eu-west-1" apiAllOk) "iam" = some (.dict []) := by
  have h := C8_amended (envOk (some ["us-east-1", "eu-west-1"])) (by decide)
  have h2 := h.2.2 "eu-west-1" (by decide) apiAllOk (apiAllFail "x")
  exact ⟨h.1, h2.1, h2.2.1⟩

/-! ## Progress-accounting claim -/

/-- C1 counterexample.  The claim quantifies over every non-empty region
list, but a caller-supplied list may repeat a region (no deduplication is
applied): scanned regions land in the `all_results` dict keyed by region
name, so after the second completion of a duplicated region the persisted
`regions_scanned` (the key list of the dict) has 1 entry, not k = 2. -/
theorem C1_counterexample :
    (List.foldl applyUpdate (create_scan "u1" "c1" "scan" "s1" "T0")
        ((perform_scan (envOk (some ["us-east-1", "us-east-1"]))).updates.take 3)).regions_scanned
      = ["us-east-1"] ∧
    ¬(List.foldl applyUpdate (create_scan "u1" "c1" "scan" "s1" "T0")
        ((perform_scan (envOk (some ["us-east-1", "us-east-1"]))).updates.take 3)).regions_scanned.length
      = 2 := by
  exact ⟨rfl, by decide⟩

/-- C1 (amended): in the scan orchestration loop over a duplicate-free
region list, after the k-th of n regions completes (1 ≤ k ≤ n), the
persisted scan record has progress floor(k/n*80), `regions_scanned` equal
to the first k regions — hence exactly k entries — and each of those
entries present as a key of the persisted results map.  (Progress is the
integer-truncated fraction computed by the source, modelled in exact arithmetic.) -/
theorem C1_amended (env : Env) (uid cid nm sid ts : String) (k : Nat)
    (cred : Credential) (ak sk2 : String) (rs : List String)
    (hc : env.credential = some cred)
    (hda : env.decrypt cred.encrypted_access_key = .ok ak)
    (hds : env.decrypt cred.encrypted_secret_key = .ok sk2)
    (hrs : rs = effectiveRegions env.regionsArg env.describeRegionsCall)
    (hnd : rs.Nodup) (hk1 : 1 ≤ k) (hkn : k ≤ rs.length) :
    (List.foldl applyUpdate (create_scan uid cid nm sid ts)
        ((perform_scan env).updates.take (1 + k))).progress = k * 80 / rs.length ∧
    (List.foldl applyUpdate (create_scan uid cid nm sid ts)
        ((perform_scan env).updates.take (1 + k))).regions_scanned = rs.take k ∧
    (List.foldl applyUpdate (create_scan uid cid nm sid ts)
        ((perform_scan env).updates.take (1 + k))).regions_scanned.length = k ∧
    ∀ r ∈ (List.foldl applyUpdate (create_scan uid cid nm sid ts)
        ((perform_scan env).updates.take (1 + k))).regions_scanned,
      (alookup (List.foldl applyUpdate (create_scan uid cid nm sid ts)
        ((perform_scan env).updates.take (1 + k))).results r).isSome = true := by
  have hlen : (scanLoopUpds env.api env.now rs.length rs 0 []).length = rs.length :=
    scanLoopUpds_length env.api env.now rs.length rs 0 []
  have hfold : List.foldl applyUpdate (create_scan uid cid nm sid ts)
      ((perform_scan env).updates.take (1 + k)) =
      { applyUpdate (create_scan uid cid nm sid ts) (runningUpdate env.now) with
        progress := (0 + k) * 80 / rs.length,
        regions_scanned := (loopAcc env.api (rs.take k) []).map Prod.fst,
        results := loopAcc env.api (rs.take k) [],
        updated_at := env.now } := by
    have hupd : (perform_scan env).updates =
        runningUpdate env.now :: scanLoopUpds env.api env.now rs.length rs 0 [] ++
          [progress85Update env.now, completedUpdate env.now (comprehensive_assessment env.assess)] := by
      rw [perform_scan_eq_ok env cred ak sk2 hc hda hds, ← hrs]
    rw [hupd]
    have hlen1 : k + 1 ≤ (runningUpdate env.now ::
        scanLoopUpds env.api env.now rs.length rs 0 []).length := by
      rw [List.length_cons, hlen]
      omega
    rw [Nat.add_comm 1 k, List.take_append_of_le_length hlen1,
      List.take_succ_cons, List.foldl_cons]
    exact loop_foldl env.api env.now rs.length k rs 0 []
      (applyUpdate (create_scan uid cid nm sid ts) (runningUpdate env.now)) hk1 hkn
  have hkeys : (loopAcc env.api (rs.take k) []).map Prod.fst = rs.take k := by
    have : (([] : List (String × Value)).map Prod.fst ++ rs.take k).Nodup := by
      rw [List.map_nil, List.nil_append]
      exact List.Nodup.sublist (List.take_sublist k rs) hnd
    simpa using loopAcc_keys env.api (rs.take k) [] this
  rw [hfold]
  refine ⟨?_, ?_, ?_, ?_⟩
  · show (0 + k) * 80 / rs.length = k * 80 / rs.length
    rw [Nat.zero_add]
  · exact hkeys
  · show ((loopAcc env.api (rs.take k) []).map Prod.fst).length = k
    rw [hkeys]
    exact List.length_take_of_le hkn
  · intro r hr
    exact alookup_isSome_of_mem _ r hr

/-- C1 witness: the amended theorem after the first of two distinct
regions, with every hypothesis discharged concretely. -/
theorem C1_witness :
    (List.foldl applyUpdate (create_scan "u1" "c1" "scan" "s1" "T0")
        ((perform_scan (envOk (some ["us-east-1", "eu-west-1"]))).updates.take 2)).progress = 40 ∧
    (List.foldl applyUpdate (create_scan "u1" "c1" "scan" "s1" "T0")
        ((perform_scan (envOk (some ["us-east-1", "eu-west-1"]))).updates.take 2)).regions_scanned
      = ["us-east-1"] := by
  have h := C1_amended (envOk (some ["us-east-1", "eu-west-1"])) "u1" "c1" "scan" "s1" "T0" 1
    ⟨"c1", "u1", "prod keys", "enc-ak", "enc-sk"⟩ "enc-ak" "enc-sk"
    ["us-east-1", "eu-west-1"] rfl rfl rfl rfl (by decide) (by decide) (by decide)
  exact ⟨h.1, h.2.1⟩

/-! ## Status state-machine claim -/

theorem C2_fail_case (uid cid nm sid ts now msg : String) :
    (∀ s ∈ (recordStates (create_scan uid cid nm sid ts)
        [runningUpdate now, failedUpdate now msg]).map (fun r => r.status),
      s = "pending" ∨ s = "running" ∨ s = "completed" ∨ s = "failed") ∧
    List.Chain' scanStep ((recordStates (create_scan uid cid nm sid ts)
      [runningUpdate now, failedUpdate now msg]).map (fun r => r.status)) := by
  have hstat : (recordStates (create_scan uid cid nm sid ts)
      [runningUpdate now, failedUpdate now msg]).map (fun r => r.status) =
      ["pending", "running", "failed"] := rfl
  rw [hstat]
  constructor
  · intro s hs
    simp only [List.mem_cons, List.not_mem_nil, or_false] at hs
    rcases hs with h | h | h
    · exact Or.inl h
    · exact Or.inr (Or.inl h)
    · exact Or.inr (Or.inr (Or.inr h))
  · exact List.chain'_cons.mpr ⟨Or.inr (Or.inl ⟨rfl, rfl⟩),
      List.chain'_cons.mpr ⟨Or.inr (Or.inr ⟨rfl, Or.inr rfl⟩), List.chain'_singleton _⟩⟩

theorem C2_ok_statuses (init : ScanRecord) (hinit : init.status = "pending")
    (L : List ScanUpdate) (hL : ∀ u ∈ L, u.status = none) (now : String) (ca : Value) :
    (recordStates init ((runningUpdate now :: L) ++
        [progress85Update now, completedUpdate now ca])).map (fun r => r.status) =
      "pending" :: (List.replicate L.length "running" ++
        ["running", "running", "completed"]) := by
  have h0 : recordStates init ((runningUpdate now :: L) ++
      [progress85Update now, completedUpdate now ca]) =
      init :: recordStates (applyUpdate init (runningUpdate now))
        (L ++ [progress85Update now, completedUpdate now ca]) := rfl
  rw [h0, List.map_cons,
    recordStates_status_none [progress85Update now, completedUpdate now ca] L hL
      (applyUpdate init (runningUpdate now))]
  have hrL : (List.foldl applyUpdate (applyUpdate init (runningUpdate now)) L).status =
      "running" := by
    rw [foldl_status_none L _ hL]
    rfl
  have h2 : (recordStates (List.foldl applyUpdate (applyUpdate init (runningUpdate now)) L)
      [progress85Update now, completedUpdate now ca]).map (fun r => r.status) =
      [(List.foldl applyUpdate (applyUpdate init (runningUpdate now)) L).status,
       (List.foldl applyUpdate (applyUpdate init (runningUpdate now)) L).status,
       "completed"] := rfl
  rw [h2, hrL, hinit]
  rfl

theorem chain'_running_tail (m : Nat) (t : String) (ht : scanStep "running" t) :
    List.Chain' scanStep (List.replicate m "running" ++ [t]) := by
  induction m with
  | zero => simp
  | succ p ih =>
    rw [List.replicate_succ, List.cons_append, List.chain'_cons']
    refine ⟨?_, ih⟩
    intro y hy
    cases p with
    | zero =>
      simp at hy
      subst hy
      exact ht
    | succ q =>
      rw [List.replicate_succ, List.cons_append] at hy
      simp at hy
      subst hy
      exact Or.inl rfl

theorem chain'_ok_statuses (n : Nat) :
    List.Chain' scanStep ("pending" :: (List.replicate n "running" ++
      ["running", "running", "completed"])) := by
  have hlist : List.replicate n "running" ++ ["running", "running", "completed"] =
      List.replicate (n + 2) "running" ++ ["completed"] := by
    rw [List.replicate_add, List.append_assoc]
    rfl
  rw [hlist, List.chain'_cons']
  refine ⟨?_, chain'_running_tail (n + 2) "completed" (Or.inr (Or.inr ⟨rfl, Or.inl rfl⟩))⟩
  intro y hy
  rw [show List.replicate (n + 2) "running" = "running" :: List.replicate (n + 1) "running"
    from rfl, List.cons_append] at hy
  simp at hy
  subst hy
  exact Or.inr (Or.inl ⟨rfl, rfl⟩)

theorem C2_mem_ok (n : Nat) :
    ∀ s ∈ ("pending" :: (List.replicate n "running" ++
        ["running", "running", "completed"])),
      s = "pending" ∨ s = "running" ∨ s = "completed" ∨ s = "failed" := by
  intro s hs
  rcases List.mem_cons.mp hs with h | h
  · exact Or.inl h
  · rcases List.mem_append.mp h with h2 | h2
    · exact Or.inr (Or.inl (List.eq_of_mem_replicate h2))
    · simp only [List.mem_cons, List.not_mem_nil, or_false] at h2
      rcases h2 with h3 | h3 | h3
      · exact Or.inr (Or.inl h3)
      · exact Or.inr (Or.inl h3)
      · exact Or.inr (Or.inr (Or.inl h3))

/-- C2: in every execution of the orchestrator, the sequence of statuses a
reader can observe only holds the four values pending, running, completed
and failed, and consecutive observable states are related by the allowed
transitions only: unchanged status (progress updates), pending to running,
running to completed, or running to failed. -/
theorem C2_transitions (env : Env) (uid cid nm sid ts : String) :
    (∀ s ∈ (recordStates (create_scan uid cid nm sid ts)
        (perform_scan env).updates).map (fun r => r.status),
      s = "pending" ∨ s = "running" ∨ s = "completed" ∨ s = "failed") ∧
    List.Chain' scanStep ((recordStates (create_scan uid cid nm sid ts)
      (perform_scan env).updates).map (fun r => r.status)) := by
  rcases hc : env.credential with _ | cred
  · have hupd : (perform_scan env).updates =
        [runningUpdate env.now, failedUpdate env.now "Credential not found"] := by
      rw [perform_scan_eq_noCred env hc]
    rw [hupd]
    exact C2_fail_case uid cid nm sid ts env.now "Credential not found"
  · rcases hda : env.decrypt cred.encrypted_access_key with e | ak
    · have hupd : (perform_scan env).updates =
          [runningUpdate env.now, failedUpdate env.now e] := by
        rw [perform_scan_eq_badAccessKey env cred e hc hda]
      rw [hupd]
      exact C2_fail_case uid cid nm sid ts env.now e
    · rcases hds : env.decrypt cred.encrypted_secret_key with e | sk2
      · have hupd : (perform_scan env).updates =
            [runningUpdate env.now, failedUpdate env.now e] := by
          rw [perform_scan_eq_badSecretKey env cred ak e hc hda hds]
        rw [hupd]
        exact C2_fail_case uid cid nm sid ts env.now e
      · have hupd : (perform_scan env).updates =
            (runningUpdate env.now :: scanLoopUpds env.api env.now
              (effectiveRegions env.regionsArg env.describeRegionsCall).length
              (effectiveRegions env.regionsArg env.describeRegionsCall) 0 []) ++
            [progress85Update env.now,
             completedUpdate env.now (comprehensive_assessment env.assess)] := by
          rw [perform_scan_eq_ok env cred ak sk2 hc hda hds]
        rw [hupd]
        have hL := fun u hu => (scanLoopUpds_mem env.api env.now
          (effectiveRegions env.regionsArg env.describeRegionsCall).length
          (effectiveRegions env.regionsArg env.describeRegionsCall) 0 [] u hu).1
        rw [C2_ok_statuses (create_scan uid cid nm sid ts) rfl _ hL env.now
          (comprehensive_assessment env.assess)]
        exact ⟨C2_mem_ok _, chain'_ok_statuses _⟩

/-- C2 witness: the theorem evaluated on the all-successful environment;
the chain property and the range property hold on the concrete trace. -/
theorem C2_witness :
    (("pending" : String) = "pending" ∨ ("pending" : String) = "running" ∨
      ("pending" : String) = "completed" ∨ ("pending" : String) = "failed") ∧
    List.Chain' scanStep ((recordStates (create_scan "u1" "c1" "scan" "s1" "T0")
      (perform_scan (envOk none)).updates).map (fun r => r.status)) :=
  ⟨(C2_transitions (envOk none) "u1" "c1" "scan" "s1" "T0").1 "pending" (by decide),
   (C2_transitions (envOk none) "u1" "c1" "scan" "s1" "T0").2⟩

/-! ## Credential-failure claim -/

/-- C3: when the credential id resolves to no stored credential, the
orchestrator issues only the running transition followed by a single
failed transition carrying the non-empty message of the raised exception;
no update touches progress, so every observable state keeps the last
persisted progress value (the 0 of the created record), and no region scan is
attempted. -/
theorem C3_credential_failure (env : Env) (uid cid nm sid ts : String)
    (hc : env.credential = none) :
    (perform_scan env).scanned = [] ∧
    (List.foldl applyUpdate (create_scan uid cid nm sid ts)
      (perform_scan env).updates).status = "failed" ∧
    (List.foldl applyUpdate (create_scan uid cid nm sid ts)
      (perform_scan env).updates).error_message = "Credential not found" ∧
    (List.foldl applyUpdate (create_scan uid cid nm sid ts)
      (perform_scan env).updates).error_message ≠ "" ∧
    ∀ rec2 ∈ recordStates (create_scan uid cid nm sid ts) (perform_scan env).updates,
      rec2.progress = (create_scan uid cid nm sid ts).progress := by
  rw [perform_scan_eq_noCred env hc]
  refine ⟨rfl, rfl, rfl, (by decide : ("Credential not found" : String) ≠ ""), ?_⟩
  intro rec2 h
  have hrs : recordStates (create_scan uid cid nm sid ts)
      [runningUpdate env.now, failedUpdate env.now "Credential not found"] =
      [create_scan uid cid nm sid ts,
       applyUpdate (create_scan uid cid nm sid ts) (runningUpdate env.now),
       applyUpdate (applyUpdate (create_scan uid cid nm sid ts) (runningUpdate env.now))
         (failedUpdate env.now "Credential not found")] := rfl
  rw [hrs] at h
  simp only [List.mem_cons, List.not_mem_nil, or_false] at h
  rcases h with h | h | h <;> subst h <;> rfl

/-- C3 witness: the theorem on the concrete environment whose credential
lookup returns nothing. -/
theorem C3_witness :
    (perform_scan envNoCred).scanned = [] ∧
    (List.foldl applyUpdate (create_scan "u1" "c1" "scan" "s1" "T0")
      (perform_scan envNoCred).updates).status = "failed" ∧
    (List.foldl applyUpdate (create_scan "u1" "c1" "scan" "s1" "T0")
      (perform_scan envNoCred).updates).error_message ≠ "" := by
  have h := C3_credential_failure envNoCred "u1" "c1" "scan" "s1" "T0" rfl
  exact ⟨h.1, h.2.1, h.2.2.2.1⟩

/-! ## Completed-implies-recommendations claim -/

theorem formatRecommendations_ne_empty (ca : Value) : formatRecommendations ca ≠ "" := by
  intro h
  have hlen := congrArg String.length h
  have hsplit : (formatRecommendations ca).length =
      ("EXECUTIVE SUMMARY:\n").length + (summaryOf ca).length +
      ("\n\nPILLAR ASSESSMENTS:\n").length +
      (String.join ((pillarsOf ca).map (fun p => pillarSection p.1 p.2))).length := by
    unfold formatRecommendations
    simp only [String.length_append]
  rw [hsplit] at hlen
  have h1 : ("EXECUTIVE SUMMARY:\n").length = 19 := rfl
  have h2 : (("" : String)).length = 0 := rfl
  rw [h1, h2] at hlen
  omega

/-- C6: in every store state reachable through the write sequence of the
orchestrator, a record whose status reads completed has a non-empty
`ai_recommendations`: the formatted recommendations are persisted in the
same atomic update that sets the completed status, so a polling reader can
never observe completed with the field still unpopulated. -/
theorem C6_completed_has_recommendations (env : Env) (uid cid nm sid ts : String) :
    ∀ rec2 ∈ recordStates (create_scan uid cid nm sid ts) (perform_scan env).updates,
      rec2.status = "completed" → rec2.ai_recommendations ≠ "" := by
  have hpres : ∀ u ∈ (perform_scan env).updates, ∀ s : ScanRecord,
      (s.status = "completed" → s.ai_recommendations ≠ "") →
      ((applyUpdate s u).status = "completed" →
        (applyUpdate s u).ai_recommendations ≠ "") := by
    rcases hc : env.credential with _ | cred
    · rw [perform_scan_eq_noCred env hc]
      intro u hu s hs
      simp only [List.mem_cons, List.not_mem_nil, or_false] at hu
      rcases hu with h | h <;> subst h
      · intro hstat; exact absurd hstat (by decide : ¬("running" : String) = "completed")
      · intro hstat; exact absurd hstat (by decide : ¬("failed" : String) = "completed")
    · rcases hda : env.decrypt cred.encrypted_access_key with e | ak
      · rw [perform_scan_eq_badAccessKey env cred e hc hda]
        intro u hu s hs
        simp only [List.mem_cons, List.not_mem_nil, or_false] at hu
        rcases hu with h | h <;> subst h
        · intro hstat; exact absurd hstat (by decide : ¬("running" : String) = "completed")
        · intro hstat; exact absurd hstat (by decide : ¬("failed" : String) = "completed")
      · rcases hds : env.decrypt cred.encrypted_secret_key with e | sk2
        · rw [perform_scan_eq_badSecretKey env cred ak e hc hda hds]
          intro u hu s hs
          simp only [List.mem_cons, List.not_mem_nil, or_false] at hu
          rcases hu with h | h <;> subst h
          · intro hstat; exact absurd hstat (by decide : ¬("running" : String) = "completed")
          · intro hstat; exact absurd hstat (by decide : ¬("failed" : String) = "completed")
        · rw [perform_scan_eq_ok env cred ak sk2 hc hda hds]
          intro u hu s hs
          rcases List.mem_append.mp hu with h | h
          · rcases List.mem_cons.mp h with h2 | h2
            · subst h2
              intro hstat
              exact absurd hstat (by decide : ¬("running" : String) = "completed")
            · have hn := scanLoopUpds_mem env.api env.now _ _ 0 [] u h2
              intro hstat
              have hstat2 : s.status = "completed" := by
                rw [← hstat]
                show s.status = u.status.getD s.status
                rw [hn.1]
                rfl
              have hai : (applyUpdate s u).ai_recommendations = s.ai_recommendations := by
                show u.ai_recommendations.getD s.ai_recommendations = s.ai_recommendations
                rw [hn.2.1]
                rfl
              rw [hai]
              exact hs hstat2
          · simp only [List.mem_cons, List.not_mem_nil, or_false] at h
            rcases h with h2 | h2 <;> subst h2
            · intro hstat
              have hstat2 : s.status = "completed" := hstat
              have hai : (applyUpdate s (progress85Update env.now)).ai_recommendations =
                  s.ai_recommendations := rfl
              rw [hai]
              exact hs hstat2
            · intro _
              show (some (formatRecommendations (comprehensive_assessment env.assess))).getD
                s.ai_recommendations ≠ ""
              exact formatRecommendations_ne_empty (comprehensive_assessment env.assess)
  exact recordStates_pred (fun r => r.status = "completed" → r.ai_recommendations ≠ "")
    (perform_scan env).updates (create_scan uid cid nm sid ts)
    (fun hstat => absurd hstat (by decide : ¬("pending" : String) = "completed")) hpres

/-- C6 witness: the final record of an all-successful run is completed and
its recommendations field is non-empty. -/
theorem C6_witness :
    (List.foldl applyUpdate (create_scan "u1" "c1" "scan" "s1" "T0")
      (perform_scan (envOk none)).updates).ai_recommendations ≠ "" :=
  C6_completed_has_recommendations (envOk none) "u1" "c1" "scan" "s1" "T0"
    (List.foldl applyUpdate (create_scan "u1" "c1" "scan" "s1" "T0")
      (perform_scan (envOk none)).updates)
    (foldl_mem_recordStates (perform_scan (envOk none)).updates
      (create_scan "u1" "c1" "scan" "s1" "T0"))
    (by decide)

/-! ## Pillar-isolation claim -/

/-- C5: when the model invocation of the security pillar raises while the other
five succeed, the security entry of `pillar_assessments` carries only the
pillar name and the error (no analysis field), the entry of every other pillar
still carries its full analysis, the executive-summary synthesis still
completes with the result of the synthesis call, and the downstream formatting
renders the analysis-less security entry as its N/A section. -/
theorem C5_pillar_isolation (env : AssessEnv) (e : String) (a : String → String)
    (hsec : env.pillarCall "security" = .error e)
    (hoth : ∀ p, p ≠ "security" → env.pillarCall p = .ok (a p)) :
    alookup (pillarsOf (comprehensive_assessment env)) "security" =
      some (.dict [("pillar", .str "security"), ("error", .str e)]) ∧
    fieldOf (.dict [("pillar", .str "security"), ("error", .str e)]) "analysis" = none ∧
    (∀ p name focus, (p, name, focus) ∈ agents → p ≠ "security" →
      alookup (pillarsOf (comprehensive_assessment env)) p =
        some (.dict [("pillar", .str p), ("agent", .str name),
                     ("analysis", .str (a p)),
                     ("focus_areas", .list (focus.map .str))])) ∧
    summaryOf (comprehensive_assessment env) = generate_executive_summary env.summaryCall ∧
    pillarSection "security" (.dict [("pillar", .str "security"), ("error", .str e)]) =
      "\n\nSECURITY:\nN/A\n" ∧
    "\n\nSECURITY:\nN/A\n" ∈ (pillarsOf (comprehensive_assessment env)).map
      (fun p => pillarSection p.1 p.2) := by
  have h1 := hoth "operational_excellence" (by decide)
  have h2 := hoth "reliability" (by decide)
  have h3 := hoth "performance_efficiency" (by decide)
  have h4 := hoth "cost_optimization" (by decide)
  have h5 := hoth "sustainability" (by decide)
  have hpa : pillarsOf (comprehensive_assessment env) =
      [("operational_excellence", Value.dict (analyze_pillar "Operational Excellence Agent"
          ["automation", "monitoring", "cicd", "incident_management"]
          "operational_excellence" (env.pillarCall "operational_excellence"))),
       ("security", Value.dict (analyze_pillar "Security Agent"
          ["iam", "encryption", "network_security", "compliance"]
          "security" (env.pillarCall "security"))),
       ("reliability", Value.dict (analyze_pillar "Reliability Agent"
          ["high_availability", "disaster_recovery", "fault_tolerance", "backup"]
          "reliability" (env.pillarCall "reliability"))),
       ("performance_efficiency", Value.dict (analyze_pillar "Performance Efficiency Agent"
          ["compute", "storage", "database", "network", "caching"]
          "performance_efficiency" (env.pillarCall "performance_efficiency"))),
       ("cost_optimization", Value.dict (analyze_pillar "Cost Optimization Agent"
          ["rightsizing", "pricing_models", "unused_resources", "storage_optimization"]
          "cost_optimization" (env.pillarCall "cost_optimization"))),
       ("sustainability", Value.dict (analyze_pillar "Sustainability Agent"
          ["carbon_footprint", "energy_efficiency", "resource_utilization", "serverless"]
          "sustainability" (env.pillarCall "sustainability")))] := rfl
  refine ⟨?_, rfl, ?_, rfl, ?_, ?_⟩
  · rw [hpa, hsec]
    rfl
  · intro p name focus hmem hne
    simp only [agents, List.mem_cons, List.not_mem_nil, or_false] at hmem
    rcases hmem with h | h | h | h | h | h
    · injection h with hp hrest
      injection hrest with hname hfocus
      subst hp; subst hname; subst hfocus
      rw [hpa, h1]
      rfl
    · injection h with hp hrest
      injection hrest with hname hfocus
      subst hp
      exact absurd rfl hne
    · injection h with hp hrest
      injection hrest with hname hfocus
      subst hp; subst hname; subst hfocus
      rw [hpa, h2]
      rfl
    · injection h with hp hrest
      injection hrest with hname hfocus
      subst hp; subst hname; subst hfocus
      rw [hpa, h3]
      rfl
    · injection h with hp hrest
      injection hrest with hname hfocus
      subst hp; subst hname; subst hfocus
      rw [hpa, h4]
      rfl
    · injection h with hp hrest
      injection hrest with hname hfocus
      subst hp; subst hname; subst hfocus
      rw [hpa, h5]
      rfl
  · rfl
  · rw [hpa, hsec]
    exact List.Mem.tail _ (List.Mem.head _)

/-- C5 witness: the theorem on the concrete environment whose security
invocation throws while every other invocation succeeds. -/
theorem C5_witness :
    alookup (pillarsOf (comprehensive_assessment assessSecFail)) "security" =
      some (.dict [("pillar", .str "security"), ("error", .str "ThrottlingException")]) ∧
    "\n\nSECURITY:\nN/A\n" ∈ (pillarsOf (comprehensive_assessment assessSecFail)).map
      (fun p => pillarSection p.1 p.2) := by
  have hoth : ∀ p, p ≠ "security" →
      assessSecFail.pillarCall p = .ok ((fun _ => "pillar analysis") p) := by
    intro p hp
    have hbeq : (p == "security") = false := by
      cases h2 : p == "security" with
      | false => rfl
      | true => exact absurd (eq_of_beq h2) hp
    show (if (p == "security") = true then Except.error "ThrottlingException"
        else Except.ok "pillar analysis") = Except.ok "pillar analysis"
    rw [hbeq]
    rfl
  have h := C5_pillar_isolation assessSecFail "ThrottlingException"
    (fun _ => "pillar analysis") rfl hoth
  exact ⟨h.1, h.2.2.2.2.2⟩

/-- C7 witness: the scan of user A requested by user B is rejected as not
found, and an id absent from the store is rejected identically. -/
theorem C7_witness :
    get_scan tableA "s1" "userB" = .error (404, "Scan not found") ∧
    get_scan tableA "missing" "userB" = .error (404, "Scan not found") := by
  have h := C7_ownership tableA "s1" "userB" (create_scan "userA" "c1" "prod scan" "s1" "T0")
    rfl (by decide)
  exact ⟨h.1, h.2 tableA "missing" rfl⟩

end WAScan
